import Mathlib

/-!
Verification development for the sheet-backed table store of the event
registration application.  The definitions below are a shallow embedding of
the TypeScript source files:

* `src/lib/sheets.ts`   - table convention layer over a spreadsheet sheet
* `src/lib/auth.ts`     - credential check for company logins
* `src/app/api/events/route.ts`               - event listing (GET)
* `src/app/api/events/register/route.ts`      - registration handler (POST)
* `src/app/api/events/registrations/route.ts` - registration listing (GET)

A sheet is a list of rows; a row is a list of string cells.  JavaScript
array indexing `row[i]` is modelled with `List.get?` / `List.getD`
(an out-of-range read yields `undefined`, which compares unequal to every
string and is falsy).  JavaScript string truthiness is `s != ""`.
-/

deriving instance DecidableEq for Except

namespace SheetStore

abbrev Row := List String
abbrev Sheet := List Row

/-- JavaScript truthiness of a possibly-undefined string value. -/
def truthy : Option String → Bool
  | none => false
  | some s => s != ""

/-- JavaScript whitespace characters of the regex class `\s` and of
`trim()` (ASCII portion; the unicode spaces are not modelled). -/
def isWs (c : Char) : Bool :=
  c == ' ' || c == '\t' || c == '\n' || c == '\r' || c == '\x0b' || c == '\x0c'

/-- ASCII lower-casing of one character (`toLowerCase`). -/
def lcChar (c : Char) : Char :=
  if 65 ≤ c.toNat && c.toNat ≤ 90 then Char.ofNat (c.toNat + 32) else c

/-- `s.toLowerCase()` (ASCII portion). -/
def jsLower (s : String) : String := ⟨s.data.map lcChar⟩

/-- `s.trim()`: strip whitespace from both ends. -/
def jsTrim (s : String) : String :=
  ⟨((s.data.dropWhile isWs).reverse.dropWhile isWs).reverse⟩

/-- Character-list test that `p` begins `cs` (`startsWith`). -/
def startsWithL : List Char → List Char → Bool
  | _, [] => true
  | [], _ :: _ => false
  | c :: cs, p :: ps => c == p && startsWithL cs ps

/-- `s.startsWith(p)`. -/
def jsStartsWith (s p : String) : Bool := startsWithL s.data p.data

/-- Normalisation used by the case-insensitive fallback:
`s.trim().toLowerCase()`. -/
def norm (s : String) : String := jsLower (jsTrim s)

/-- First index of an element satisfying `p`, or `none`.
Mirrors JavaScript `findIndex` (with `-1` mapped to `none`). -/
def firstIdx? {α : Type} (p : α → Bool) : List α → Option Nat
  | [] => none
  | a :: rest => if p a then some 0 else (firstIdx? p rest).map (· + 1)

/-- JavaScript `slice(a, b)`. -/
def slice {α : Type} (l : List α) (a b : Nat) : List α := (l.take b).drop a

/-- Exact marker match used by the table scans:
`data[i] && data[i][0] === tableName`. -/
def exactMatch (t : String) (r : Row) : Bool := r[0]? == some t

/-- Case-insensitive fallback match:
`data[i] && data[i][0] && data[i][0].trim().toLowerCase() === normalized`. -/
def ciMatch (t : String) (r : Row) : Bool :=
  match r[0]? with
  | some c => c != "" && norm c == norm t
  | none => false

/-- Marker test used by the end-of-table scans in `getTableData`,
`addToTable` and `deleteTable`:
`data[i].length === 1 && data[i][0] !== ''`. -/
def isMarker (r : Row) : Bool := r.length == 1 && r.getD 0 "" != ""

/-- The start-index resolution shared by `getTableData` and `addToTable`:
a pass with the exact first-cell match, then a pass with the
case-insensitive trimmed match. -/
def findTableStart (data : Sheet) (t : String) : Option Nat :=
  match firstIdx? (exactMatch t) data with
  | some i => some i
  | none => firstIdx? (ciMatch t) data

/-- The end-index resolution shared by the table operations: the first
marker row strictly after `s`, or the length of the sheet. -/
def tableEnd (data : Sheet) (s : Nat) : Nat :=
  match firstIdx? isMarker (data.drop (s + 1)) with
  | some j => s + 1 + j
  | none => data.length

inductive TableError
  | emptySheet
  | notFound
  | alreadyExists
  deriving Repr, DecidableEq

/-- `getTableData` from `src/lib/sheets.ts` (lines 156-221): fail on an
empty sheet, resolve the start marker (exact match first, case-insensitive
second), resolve the end (next marker row or end of sheet), and return
`data.slice(tableStartIndex + 1, tableEndIndex)`. -/
def getTableData (data : Sheet) (t : String) : Except TableError (List Row) :=
  if data.length = 0 then .error .emptySheet
  else
    match findTableStart data t with
    | none => .error .notFound
    | some s => .ok (slice data (s + 1) (tableEnd data s))

/-- Insertion of a row at an absolute index, shifting later rows down. -/
def insertRow (data : Sheet) (i : Nat) (r : Row) : Sheet :=
  data.take i ++ r :: data.drop i

/-- `addToTable` from `src/lib/sheets.ts` (lines 224-292): resolve the
table exactly as `getTableData` does, compute `tableEndIndex`, and issue
the external append at range `A(tableEndIndex + 1)`.  The external
`values.append` call is modelled, following the specification of the Row
Store Client interaction (the operation computes the absolute sheet row
index immediately after the last row of the table and appends there), as
insertion of the row at that absolute index. -/
def addToTable (data : Sheet) (t : String) (rowData : Row) : Except TableError Sheet :=
  if data.length = 0 then .error .emptySheet
  else
    match findTableStart data t with
    | none => .error .notFound
    | some s => .ok (insertRow data (tableEnd data s) rowData)

/-- `createTable` from `src/lib/sheets.ts` (lines 130-153): fail when some
row has first cell exactly equal to the table name
(`data.some((row) => row[0] === tableName)`), otherwise append the marker
row and then the header row at the end of the sheet. -/
def createTable (data : Sheet) (t : String) (headers : Row) : Except TableError Sheet :=
  if data.any (exactMatch t) then .error .alreadyExists
  else .ok (data ++ [[t], headers])

/-- `deleteTable` from `src/lib/sheets.ts` (lines 295-356): resolve the
start by the exact first-cell match only (`data[i][0] === tableName`, no
case-insensitive fallback), resolve the end as the next marker row or end
of sheet, and delete the row range `[startIndex, endIndex)`. -/
def deleteTable (data : Sheet) (t : String) : Except TableError Sheet :=
  match firstIdx? (exactMatch t) data with
  | none => .error .notFound
  | some s => .ok (data.take s ++ data.drop (tableEnd data s))

/-- Status of a company directory row: `row[5] || 'enabled'`. -/
def companyStatusOf (row : Row) : String :=
  let s := row.getD 5 ""
  if s = "" then "enabled" else s

/-- The whole backing document: sheets addressed by title.  `getSheetData`
on an absent sheet throws (here: `none`); an existing empty sheet yields
an empty row list. -/
structure World where
  sheets : List (String × Sheet)
  deriving Repr, DecidableEq

def getSheet? (w : World) (name : String) : Option Sheet :=
  (w.sheets.find? (fun p => p.1 == name)).map (fun p => p.2)

def updateAssoc : List (String × Sheet) → String → Sheet → List (String × Sheet)
  | [], n, s => [(n, s)]
  | p :: rest, n, s => if p.1 == n then (n, s) :: rest else p :: updateAssoc rest n s

def setSheet (w : World) (name : String) (s : Sheet) : World :=
  ⟨updateAssoc w.sheets name s⟩

/-- Marker recognition of the event listing (`src/app/api/events/route.ts`
lines 48-51): `data[i].length === 1 && data[i][0] && !data[i][0].startsWith(ID)`. -/
def isEventMarker (r : Row) : Bool :=
  r.length == 1 && r.getD 0 "" != "" && !(jsStartsWith (r.getD 0 "") "ID")

/-- The four metadata column names. -/
def settingsNames : List String := ["Image", "EventDescription", "EventDate", "EventStatus"]

/-- Settings-row classification as the event listing and the registration
listing implement it (`route.ts` lines 122-131 and `registrations/route.ts`
lines 70-79; the two loops are word-for-word the same test): every cell is
empty, or sits at the first index at which the header row carries one of
the four settings names. -/
def isSettingsRow (headers : Row) (row : Row) : Bool :=
  let iI := firstIdx? (fun h => h == "Image") headers
  let dI := firstIdx? (fun h => h == "EventDescription") headers
  let aI := firstIdx? (fun h => h == "EventDate") headers
  let sI := firstIdx? (fun h => h == "EventStatus") headers
  row.enum.all (fun p =>
    (some p.1 == iI && p.2 != "") || (some p.1 == dI && p.2 != "") ||
    (some p.1 == aI && p.2 != "") || (some p.1 == sI && p.2 != "") || p.2 == "")

/-- Registration counting of the event listing (`route.ts` lines 101-143):
re-read the table; on failure leave the count at zero; otherwise count the
rows after the header row that are not settings rows. -/
def countRegs (data : Sheet) (id : String) : Nat :=
  match getTableData data id with
  | .error _ => 0
  | .ok td => (td.drop 1).countP (fun r => !(isSettingsRow (td.headD []) r))

/-- One settings cell of an event: present when the header carries the
column name and the settings row cell is truthy (`route.ts` lines 56-86). -/
def settingCell (headers : Row) (srow? : Option Row) (nm : String) : Option String :=
  match firstIdx? (fun h => h == nm) headers, srow? with
  | some j, some srow => if truthy srow[j]? then srow[j]? else none
  | _, _ => none

structure EventInfo where
  id : String
  name : String
  image : Option String
  description : String
  date : String
  status : String
  registrations : Nat
  companyStatus : String
  deriving Repr, DecidableEq

/-- The marker scan of the event listing: each recognised marker together
with the following row (`data[i+1] || []`) and the row after it. -/
def eventsScan : Sheet → List (String × Row × Option Row)
  | [] => []
  | r :: rest =>
    if isEventMarker r then (r.getD 0 "", rest.headD [], rest[1]?) :: eventsScan rest
    else eventsScan rest

def mkEvent (data : Sheet) (compStatus : String) (e : String × Row × Option Row) : EventInfo :=
  { id := e.1
    name := e.1
    image := settingCell e.2.1 e.2.2 "Image"
    description := (settingCell e.2.1 e.2.2 "EventDescription").getD ""
    date := (settingCell e.2.1 e.2.2 "EventDate").getD ""
    status := (settingCell e.2.1 e.2.2 "EventStatus").getD "enabled"
    registrations := countRegs data e.1
    companyStatus := compStatus }

inductive EventsError
  | missingCompany
  | companyDisabled
  | storeError
  deriving Repr, DecidableEq

/-- Company status as the event listing resolves it (`route.ts` lines
27-41 and 96): find the directory row whose second cell equals the name
exactly; a missing row counts as `enabled`. -/
def companyStatusOfFind (companiesData : Sheet) (companyName : String) : String :=
  ((((companiesData.drop 1).find? (fun r => r[1]? == some companyName)).map
    companyStatusOf).getD "enabled")

/-- GET `/api/events?company=...` (`src/app/api/events/route.ts` lines
8-153): look the company up in the companies sheet by exact name, reject a
disabled company, scan the company sheet for event markers, and resolve
settings and registration counts per event. -/
def listEvents (w : World) (companyName : String) : Except EventsError (List EventInfo) :=
  if companyName = "" then .error .missingCompany
  else
    match getSheet? w "companies" with
    | none => .error .storeError
    | some companiesData =>
      if companyStatusOfFind companiesData companyName == "disabled" then
        .error .companyDisabled
      else
        match getSheet? w companyName with
        | none => .error .storeError
        | some data =>
          .ok ((eventsScan data).map
            (mkEvent data (companyStatusOfFind companiesData companyName)))

/-- A dot at an interior position of the character list. -/
def hasInteriorDot (cs : List Char) : Bool :=
  cs.enum.any (fun p => p.2 == '.' && decide (1 ≤ p.1) && decide (p.1 + 1 < cs.length))

/-- The language of the email regex of the registration handler,
`/^[^\s@]+@[^\s@]+\.[^\s@]+$/`: no whitespace, exactly one `@` sign with a
nonempty local part before it, and a dot at an interior position of the
domain part. -/
def emailOk (s : String) : Bool :=
  let cs := s.toList
  cs.all (fun c => !(isWs c)) &&
  (cs.filter (fun c => c == '@')).length == 1 &&
  (match firstIdx? (fun c => c == '@') cs with
   | none => false
   | some a => decide (1 ≤ a) && hasInteriorDot (cs.drop (a + 1)))

/-- The phone regex of the registration handler, `/^\d{10,15}$/`. -/
def phoneOk (s : String) : Bool :=
  let cs := s.toList
  cs.all (fun c => c.isDigit) && decide (10 ≤ cs.length) && decide (cs.length ≤ 15)

/-- `decodeURIComponent(raw).trim()` applied to a possibly missing body
field.  A missing field is `undefined`; `decodeURIComponent` coerces it to
the string `undefined` before decoding.  Percent-decoding itself is
modelled as the identity (no claim involves percent escapes). -/
def jsDecodeTrim : Option String → String
  | none => "undefined"
  | some s => jsTrim s

/-- The request body of POST `/api/events/register`; absent JSON fields
are `none`. -/
structure RegRequest where
  companyName : Option String
  eventName : Option String
  name : Option String
  phone : Option String
  email : Option String
  gender : Option String
  college : Option String
  status : Option String
  nationalId : Option String
  deriving Repr, DecidableEq

inductive RegError
  | missingFields
  | invalidEmail
  | invalidPhone
  | companyNotFound
  | companyDisabled
  | noEvents
  | eventNotFound
  | eventDisabled
  | alreadyRegistered
  | serverError
  deriving Repr, DecidableEq

/-- The HTTP status the handler sends for each failure. -/
def httpStatus : RegError → Nat
  | .missingFields => 400
  | .invalidEmail => 400
  | .invalidPhone => 400
  | .companyNotFound => 404
  | .companyDisabled => 403
  | .noEvents => 404
  | .eventNotFound => 404
  | .eventDisabled => 403
  | .alreadyRegistered => 400
  | .serverError => 500

/-- Field validation of the registration handler (`register/route.ts`
lines 32-68), performed on the decoded company and event names and the raw
remaining fields, in source order: required fields, then the email shape,
then the phone shape. -/
def validateReq (req : RegRequest) : Option RegError :=
  let companyName := jsDecodeTrim req.companyName
  let eventId := jsDecodeTrim req.eventName
  if companyName = "" || eventId = "" || !truthy req.name || !truthy req.phone ||
     !truthy req.email || !truthy req.gender || !truthy req.college ||
     !truthy req.status || !truthy req.nationalId then
    some .missingFields
  else if !(emailOk (req.email.getD "")) then some .invalidEmail
  else if !(phoneOk (req.phone.getD "")) then some .invalidPhone
  else none

/-- Company lookup of the registration handler (line 88):
`row[1]?.trim().toLowerCase() === companyName.toLowerCase()`. -/
def ciNameMatch (companyName : String) (r : Row) : Bool :=
  match r[1]? with
  | some c => jsLower (jsTrim c) == jsLower companyName
  | none => false

/-- Disabled check of the registration handler (lines 160-172): only when
the header row carries `EventStatus` and the table has a row after the
header, and that row holds `disabled` in the status column. -/
def eventDisabledCheck (tableData : List Row) : Bool :=
  match firstIdx? (fun h => h == "EventStatus") (tableData.headD []) with
  | some j => decide (1 < tableData.length) && (tableData.getD 1 []).getD j "" == "disabled"
  | none => false

/-- POST `/api/events/register` (`src/app/api/events/register/route.ts`):
validation, company sheet existence, company directory lookup with
disabled gating, event resolution through the event listing, event
disabled gating, duplicate detection over the rows after the header at the
fixed cell indices 1 (phone) and 2 (email), and the final append through
`addToTable`.  The server timestamp is the parameter `now`. -/
def register (w : World) (req : RegRequest) (now : String) :
    Except RegError (World × (String × String × String)) :=
  match validateReq req with
  | some e => .error e
  | none =>
    let companyName := jsDecodeTrim req.companyName
    let eventId := jsDecodeTrim req.eventName
    let email := req.email.getD ""
    let phone := req.phone.getD ""
    match getSheet? w companyName with
    | none => .error .companyNotFound
    | some sheetData =>
      if sheetData.length = 0 then .error .companyNotFound
      else
        match getSheet? w "companies" with
        | none => .error .companyNotFound
        | some companiesData =>
          match (companiesData.drop 1).find? (ciNameMatch companyName) with
          | none => .error .companyNotFound
          | some row =>
            if companyStatusOf row == "disabled" then .error .companyDisabled
            else
              match listEvents w companyName with
              | .error _ => .error .noEvents
              | .ok events =>
                if events.isEmpty then .error .noEvents
                else
                  match events.find? (fun e => norm e.id == norm eventId) with
                  | none => .error .eventNotFound
                  | some ev =>
                    match getTableData sheetData ev.id with
                    | .error _ => .error .eventNotFound
                    | .ok tableData =>
                      if tableData.length = 0 then .error .eventNotFound
                      else if eventDisabledCheck tableData then .error .eventDisabled
                      else
                        match (tableData.drop 1).find?
                            (fun r => r[2]? == some email || r[1]? == some phone) with
                        | some _ => .error .alreadyRegistered
                        | none =>
                          let newRow : Row :=
                            [req.name.getD "", phone, email, req.gender.getD "",
                             req.college.getD "", req.status.getD "",
                             req.nationalId.getD "", now, ""]
                          match addToTable sheetData ev.id newRow with
                          | .error _ => .error .eventNotFound
                          | .ok newSheet =>
                            .ok (setSheet w companyName newSheet,
                                 (req.name.getD "", email, now))

inductive AuthOutcome
  | granted (id nm : String)
  | denied
  | disabledCompany
  deriving Repr, DecidableEq

/-- The company branch of `authorize` in `src/lib/auth.ts` (lines 37-72):
find the directory row with the exact username, reject a disabled company
with the `CompanyDisabled` error before the password is ever checked,
otherwise compare the password hash.  The external `bcrypt.compare` is the
parameter `pwCheck`. -/
def authorizeCompany (companies : Sheet) (pwCheck : String → String → Bool)
    (username password : String) : AuthOutcome :=
  if username = "" || password = "" then .denied
  else
    match (companies.drop 1).find? (fun r => r[2]? == some username) with
    | none => .denied
    | some row =>
      if companyStatusOf row == "disabled" then .disabledCompany
      else if pwCheck password (row.getD 3 "") then
        .granted (row.getD 0 "") (row.getD 1 "")
      else .denied

/-- First index of the `National ID` header. -/
def natIdIdx (headers : Row) : Option Nat :=
  firstIdx? (fun h => h == "National ID") headers

/-- First indices of the four settings headers, in source order, absent
columns dropped (`registrations/route.ts` line 52). -/
def settingsIdxsOf (headers : Row) : List Nat :=
  [firstIdx? (fun h => h == "Image") headers,
   firstIdx? (fun h => h == "EventDescription") headers,
   firstIdx? (fun h => h == "EventDate") headers,
   firstIdx? (fun h => h == "EventStatus") headers].filterMap id

/-- Column indices excluded from the registration listing
(`registrations/route.ts` lines 57-61): for an admin only the settings
columns, otherwise also the `National ID` column when present. -/
def excludeIdxs (headers : Row) (isAdmin : Bool) : List Nat :=
  if isAdmin then settingsIdxsOf headers
  else
    match natIdIdx headers with
    | some j => settingsIdxsOf headers ++ [j]
    | none => settingsIdxsOf headers

structure RegsView where
  headers : Row
  registrations : List (List (String × String))
  total : Nat
  deriving Repr, DecidableEq

/-- The response assembly of GET `/api/events/registrations`
(`registrations/route.ts` lines 42-101) on the table read by
`getTableData`: `none` models the uncaught access `tableData[0]` on an
empty result (a 500 response).  Headers are filtered by the excluded
indices; the rows after the header are filtered by the settings-row test
and projected, per kept column, to the pair of header name and
`row[index] || ""`. -/
def registrationsView (tableData : List Row) (isAdmin : Bool) : Option RegsView :=
  match tableData with
  | [] => none
  | originalHeaders :: restRows =>
    let ex := excludeIdxs originalHeaders isAdmin
    let hdrs := (originalHeaders.enum.filter (fun p => !(ex.contains p.1))).map (fun p => p.2)
    let regs := (restRows.filter (fun row => !(isSettingsRow originalHeaders row))).map
      (fun row => originalHeaders.enum.filterMap
        (fun p => if ex.contains p.1 then none else some (p.2, row.getD p.1 "")))
    some ⟨hdrs, regs, regs.length⟩

/-- Marker-row classification as the specification words it for the claim
of `getTableData`: a row with exactly one non-empty cell.  Kept for
comparison with `isMarker`, which the code implements. -/
def specMarkerRow (r : Row) : Bool := (r.filter (fun c => c != "")).length == 1

/-- Settings-row classification as the specification words it: every cell
is empty or sits in a column whose header name is one of the four settings
names.  Kept for comparison with `isSettingsRow`, which the code
implements. -/
def specSettingsRow (headers : Row) (row : Row) : Bool :=
  row.enum.all (fun p => p.2 == "" || settingsNames.contains (headers.getD p.1 ""))

/-- The least-index property: position `i` holds a match and every earlier
position does not. -/
def FirstWith {α : Type} (p : α → Bool) (l : List α) (i : Nat) : Prop :=
  (∃ x, l.get? i = some x ∧ p x = true) ∧
  ∀ j, j < i → ∀ x, l.get? j = some x → p x = false

/-- Concrete scenario data for the closed theorems: a company directory
sheet with one enabled company `c`, the canonical event table headers, a
settings row, and a populated event sheet. -/
def companiesFixture : Sheet :=
  [["ID", "Name", "Username", "Password", "Image", "Status"],
   ["1", "c", "c", "h", "", "enabled"]]

def canonicalHeaders : Row :=
  ["Name", "Phone", "Email", "Gender", "College", "Status", "National ID",
   "Registration Date", "Image", "EventDescription", "EventDate", "EventStatus"]

def settingsFixture : Row :=
  ["", "", "", "", "", "", "", "", "", "d", "2025", "enabled"]

def eventSheetFixture : Sheet := [["EV"], canonicalHeaders, settingsFixture]

def worldFixture : World :=
  ⟨[("companies", companiesFixture), ("c", eventSheetFixture)]⟩

/-- A valid registration request for event `EV` of company `c`. -/
def samRequest : RegRequest :=
  ⟨some "c", some "EV", some "Sam", some "0123456789", some "sam@x.cd",
   some "m", some "Eng", some "student", some "123"⟩

/-- The registrant row the handler appends for `samRequest` at time t1. -/
def samRow : Row :=
  ["Sam", "0123456789", "sam@x.cd", "m", "Eng", "student", "123", "t1", ""]

def worldAfterSam : World :=
  ⟨[("companies", companiesFixture),
    ("c", [["EV"], canonicalHeaders, settingsFixture, samRow])]⟩

/-- Same person, email in different case and a different phone number. -/
def samCaseVariantRequest : RegRequest :=
  ⟨some "c", some "EV", some "Sam", some "0123456788", some "SAM@x.cd",
   some "m", some "Eng", some "student", some "123"⟩

/-- A request whose `companyName` field is absent from the JSON body. -/
def missingCompanyRequest : RegRequest :=
  ⟨none, some "EV", some "Sam", some "0123456789", some "sam@x.cd",
   some "m", some "Eng", some "student", some "123"⟩

/-- A directory in which a company is literally named `undefined`. -/
def undefinedCompaniesFixture : Sheet :=
  [["ID", "Name", "Username", "Password", "Image", "Status"],
   ["1", "undefined", "u", "h", "", "enabled"]]

def undefinedWorld : World :=
  ⟨[("companies", undefinedCompaniesFixture), ("undefined", eventSheetFixture)]⟩

/-- A directory whose only company `Acme` is disabled. -/
def disabledCompaniesFixture : Sheet :=
  [["ID", "Name", "Username", "Password", "Image", "Status"],
   ["1", "Acme", "acme", "h", "", "disabled"]]

/-- Disabled company whose sheet exists but is empty (no events yet). -/
def disabledEmptyWorld : World :=
  ⟨[("companies", disabledCompaniesFixture), ("Acme", [])]⟩

/-- Disabled company whose sheet holds an event table. -/
def disabledWorld : World :=
  ⟨[("companies", disabledCompaniesFixture), ("Acme", eventSheetFixture)]⟩

def acmeRequest : RegRequest :=
  ⟨some "Acme", some "EV", some "Sam", some "0123456789", some "sam@x.cd",
   some "m", some "Eng", some "student", some "123"⟩

/-- Settings row whose `EventStatus` cell is `disabled`. -/
def settingsDisabledFixture : Row :=
  ["", "", "", "", "", "", "", "", "", "d", "2025", "disabled"]

def disabledEventWorld : World :=
  ⟨[("companies", companiesFixture),
    ("c", [["EV"], canonicalHeaders, settingsDisabledFixture])]⟩

/-- An event table whose header places `Image` at cell index 1 (the phone
position of the duplicate scan) and whose settings row stores a digit
string there. -/
def oddHeadersFixture : Row := ["Name", "Image", "Email"]

def oddSettingsRowFixture : Row := ["", "0123456789"]

def oddWorld : World :=
  ⟨[("companies", companiesFixture), ("c", [["EV"], oddHeadersFixture, oddSettingsRowFixture])]⟩

end SheetStore

namespace SheetStore

theorem firstIdx?_eq_none_iff {α : Type} (p : α → Bool) (l : List α) :
    firstIdx? p l = none ↔ ∀ x ∈ l, p x = false := by
  induction l with
  | nil => simp [firstIdx?]
  | cons a t ih =>
    cases hpa : p a with
    | true => simp [firstIdx?, hpa]
    | false => simp [firstIdx?, hpa, Option.map_eq_none', ih]

theorem firstIdx?_eq_some_iff {α : Type} (p : α → Bool) (l : List α) (i : Nat) :
    firstIdx? p l = some i ↔ FirstWith p l i := by
  induction l generalizing i with
  | nil => simp [firstIdx?, FirstWith]
  | cons a t ih =>
    cases hpa : p a with
    | true =>
      simp only [firstIdx?, hpa, if_pos]
      constructor
      · intro hi
        obtain rfl : (0 : Nat) = i := by injection hi
        exact ⟨⟨a, rfl, hpa⟩, fun j hj x hx => absurd hj (Nat.not_lt_zero j)⟩
      · rintro ⟨-, hmin⟩
        cases i with
        | zero => rfl
        | succ k =>
          have h0 := hmin 0 (Nat.succ_pos k) a rfl
          rw [hpa] at h0
          cases h0
    | false =>
      simp only [firstIdx?, hpa, if_neg, Bool.false_eq_true, not_false_iff]
      cases i with
      | zero =>
        constructor
        · intro h
          obtain ⟨m, -, hm2⟩ := Option.map_eq_some'.mp h
          omega
        · rintro ⟨⟨x, hx, hpx⟩, -⟩
          obtain rfl : a = x := by injection hx
          rw [hpa] at hpx
          cases hpx
      | succ k =>
        have hmap : (firstIdx? p t).map (· + 1) = some (k + 1) ↔ firstIdx? p t = some k := by
          constructor
          · intro h
            obtain ⟨m, hm1, hm2⟩ := Option.map_eq_some'.mp h
            obtain rfl : m = k := by omega
            exact hm1
          · intro h
            rw [h]
            rfl
        rw [hmap, ih]
        constructor
        · rintro ⟨⟨x, hx, hpx⟩, hmin⟩
          refine ⟨⟨x, by simpa using hx, hpx⟩, ?_⟩
          intro j hj y hy
          cases j with
          | zero =>
            obtain rfl : a = y := by injection hy
            exact hpa
          | succ m => exact hmin m (by omega) y (by simpa using hy)
        · rintro ⟨⟨x, hx, hpx⟩, hmin⟩
          refine ⟨⟨x, by simpa using hx, hpx⟩, ?_⟩
          intro j hj y hy
          exact hmin (j + 1) (by omega) y (by simpa using hy)

theorem firstIdx?_lt_length {α : Type} {p : α → Bool} {l : List α} {i : Nat}
    (h : firstIdx? p l = some i) : i < l.length := by
  obtain ⟨⟨x, hx, -⟩, -⟩ := (firstIdx?_eq_some_iff p l i).mp h
  exact (List.get?_eq_some.mp hx).1

theorem firstIdx?_append_of_forall {α : Type} (p : α → Bool) (l1 l2 : List α)
    (h : ∀ x ∈ l1, p x = false) :
    firstIdx? p (l1 ++ l2) = (firstIdx? p l2).map (fun j => j + l1.length) := by
  induction l1 with
  | nil =>
    cases hf : firstIdx? p l2 <;> simp [hf]
  | cons a t ih =>
    have ha : p a = false := h a (List.mem_cons_self a t)
    have ht := ih (fun x hx => h x (List.mem_cons_of_mem a hx))
    have hstep : firstIdx? p ((a :: t) ++ l2) = (firstIdx? p (t ++ l2)).map (· + 1) := by
      rw [List.cons_append]
      simp only [firstIdx?, ha, Bool.false_eq_true, if_false]
    rw [hstep, ht]
    cases firstIdx? p l2 with
    | none => rfl
    | some j =>
      simp only [Option.map_some', Option.some.injEq, List.length_cons]
      omega

theorem get?_of_mem_slice {α : Type} {l : List α} {a b : Nat} {x : α}
    (h : x ∈ slice l a b) : ∃ j, a ≤ j ∧ j < b ∧ l.get? j = some x := by
  obtain ⟨k, hk⟩ := List.mem_iff_get?.mp h
  rw [slice, List.get?_drop] at hk
  have hlen := (List.get?_eq_some.mp hk).1
  have hlt : a + k < b := by
    rw [List.length_take] at hlen
    omega
  refine ⟨a + k, Nat.le_add_right a k, hlt, ?_⟩
  rw [← List.get?_take hlt]
  exact hk

theorem tableEnd_eq_some {data : Sheet} {s j : Nat}
    (hf : firstIdx? isMarker (data.drop (s + 1)) = some j) :
    tableEnd data s = s + 1 + j := by
  unfold tableEnd
  rw [hf]

theorem tableEnd_eq_none {data : Sheet} {s : Nat}
    (hf : firstIdx? isMarker (data.drop (s + 1)) = none) :
    tableEnd data s = data.length := by
  unfold tableEnd
  rw [hf]

theorem tableEnd_le (data : Sheet) (s : Nat) : tableEnd data s ≤ data.length := by
  cases hf : firstIdx? isMarker (data.drop (s + 1)) with
  | none => rw [tableEnd_eq_none hf]
  | some j =>
    have hj := firstIdx?_lt_length hf
    rw [List.length_drop] at hj
    rw [tableEnd_eq_some hf]
    omega

theorem tableEnd_gt (data : Sheet) (s : Nat) (h : s < data.length) :
    s < tableEnd data s := by
  cases hf : firstIdx? isMarker (data.drop (s + 1)) with
  | none => rw [tableEnd_eq_none hf]; omega
  | some j => rw [tableEnd_eq_some hf]; omega

theorem tableEnd_no_marker (data : Sheet) (s : Nat) :
    ∀ j x, s < j → j < tableEnd data s → data.get? j = some x → isMarker x = false := by
  intro j x hsj hje hget
  have hdropget : (data.drop (s + 1)).get? (j - (s + 1)) = some x := by
    rw [List.get?_drop]
    rw [show s + 1 + (j - (s + 1)) = j by omega]
    exact hget
  cases hf : firstIdx? isMarker (data.drop (s + 1)) with
  | none =>
    have hall := (firstIdx?_eq_none_iff isMarker (data.drop (s + 1))).mp hf
    exact hall x (List.get?_mem hdropget)
  | some j0 =>
    rw [tableEnd_eq_some hf] at hje
    obtain ⟨-, hmin⟩ := (firstIdx?_eq_some_iff isMarker (data.drop (s + 1)) j0).mp hf
    exact hmin (j - (s + 1)) (by omega) x hdropget

theorem tableEnd_marker_or_end (data : Sheet) (s : Nat) :
    tableEnd data s = data.length ∨
      ∃ x, data.get? (tableEnd data s) = some x ∧ isMarker x = true := by
  cases hf : firstIdx? isMarker (data.drop (s + 1)) with
  | none => exact Or.inl (tableEnd_eq_none hf)
  | some j0 =>
    obtain ⟨⟨x, hx, hpx⟩, -⟩ := (firstIdx?_eq_some_iff isMarker (data.drop (s + 1)) j0).mp hf
    rw [List.get?_drop] at hx
    rw [tableEnd_eq_some hf]
    exact Or.inr ⟨x, hx, hpx⟩

theorem findTableStart_eq_exact {data : Sheet} {T : String} {i : Nat}
    (he : firstIdx? (exactMatch T) data = some i) :
    findTableStart data T = some i := by
  unfold findTableStart
  rw [he]

theorem findTableStart_eq_ci {data : Sheet} {T : String}
    (he : firstIdx? (exactMatch T) data = none) :
    findTableStart data T = firstIdx? (ciMatch T) data := by
  unfold findTableStart
  rw [he]

theorem findTableStart_eq_some_iff (data : Sheet) (T : String) (s : Nat) :
    findTableStart data T = some s ↔
      (FirstWith (exactMatch T) data s ∨
       ((∀ r ∈ data, exactMatch T r = false) ∧ FirstWith (ciMatch T) data s)) := by
  cases he : firstIdx? (exactMatch T) data with
  | some i =>
    rw [findTableStart_eq_exact he]
    constructor
    · intro h
      obtain rfl : i = s := by injection h
      exact Or.inl ((firstIdx?_eq_some_iff (exactMatch T) data i).mp he)
    · rintro (h | ⟨hall, -⟩)
      · have h2 := (firstIdx?_eq_some_iff (exactMatch T) data s).mpr h
        rw [he] at h2
        exact h2
      · exfalso
        obtain ⟨⟨x, hx, hpx⟩, -⟩ := (firstIdx?_eq_some_iff (exactMatch T) data i).mp he
        rw [hall x (List.get?_mem hx)] at hpx
        cases hpx
  | none =>
    have hall := (firstIdx?_eq_none_iff (exactMatch T) data).mp he
    rw [findTableStart_eq_ci he, firstIdx?_eq_some_iff]
    constructor
    · intro h
      exact Or.inr ⟨hall, h⟩
    · rintro (h | ⟨-, h⟩)
      · exfalso
        obtain ⟨⟨x, hx, hpx⟩, -⟩ := h
        rw [hall x (List.get?_mem hx)] at hpx
        cases hpx
      · exact h

theorem findTableStart_eq_none_iff (data : Sheet) (T : String) :
    findTableStart data T = none ↔
      (∀ r ∈ data, exactMatch T r = false) ∧ (∀ r ∈ data, ciMatch T r = false) := by
  cases he : firstIdx? (exactMatch T) data with
  | some i =>
    rw [findTableStart_eq_exact he]
    constructor
    · intro h
      cases h
    · rintro ⟨hall, -⟩
      exfalso
      obtain ⟨⟨x, hx, hpx⟩, -⟩ := (firstIdx?_eq_some_iff (exactMatch T) data i).mp he
      rw [hall x (List.get?_mem hx)] at hpx
      cases hpx
  | none =>
    rw [findTableStart_eq_ci he, firstIdx?_eq_none_iff]
    have hall := (firstIdx?_eq_none_iff (exactMatch T) data).mp he
    exact ⟨fun h => ⟨hall, h⟩, fun h => h.2⟩

theorem findTableStart_some_pos {data : Sheet} {T : String} {s : Nat}
    (h : findTableStart data T = some s) : s < data.length := by
  rcases (findTableStart_eq_some_iff data T s).mp h with ⟨⟨x, hx, -⟩, -⟩ | ⟨-, ⟨x, hx, -⟩, -⟩ <;>
  · obtain ⟨hlt, -⟩ := List.get?_eq_some.mp hx
    exact hlt


theorem getTableData_eq_ok {data : Sheet} {T : String} {s : Nat}
    (h : findTableStart data T = some s) :
    getTableData data T = .ok (slice data (s + 1) (tableEnd data s)) := by
  have hpos := findTableStart_some_pos h
  unfold getTableData
  rw [if_neg (by omega), h]

theorem getTableData_eq_notFound {data : Sheet} {T : String}
    (hne : data.length ≠ 0) (h : findTableStart data T = none) :
    getTableData data T = .error .notFound := by
  unfold getTableData
  rw [if_neg hne, h]

theorem addToTable_eq_ok {data : Sheet} {T : String} {s : Nat} (r : Row)
    (h : findTableStart data T = some s) :
    addToTable data T r = .ok (insertRow data (tableEnd data s) r) := by
  have hpos := findTableStart_some_pos h
  unfold addToTable
  rw [if_neg (by omega), h]

theorem deleteTable_eq_ok {data : Sheet} {T : String} {s : Nat}
    (h : firstIdx? (exactMatch T) data = some s) :
    deleteTable data T = .ok (data.take s ++ data.drop (tableEnd data s)) := by
  unfold deleteTable
  rw [h]

theorem deleteTable_eq_notFound {data : Sheet} {T : String}
    (h : firstIdx? (exactMatch T) data = none) :
    deleteTable data T = .error .notFound := by
  unfold deleteTable
  rw [h]

theorem exists_exact_firstIdx {data : Sheet} {T : String}
    (h : ∃ r ∈ data, exactMatch T r = true) :
    ∃ i, firstIdx? (exactMatch T) data = some i := by
  cases he : firstIdx? (exactMatch T) data with
  | some i => exact ⟨i, rfl⟩
  | none =>
    obtain ⟨r, hr, hp⟩ := h
    rw [(firstIdx?_eq_none_iff (exactMatch T) data).mp he r hr] at hp
    cases hp

/-- C8: `deleteTable` resolves the start marker by the exact first-cell
match only and fails with `notFound` when no exact match exists (even when
a case-insensitive match would succeed, unlike `getTableData`); on success
it removes exactly the row range from the marker row through the last
table row (the row before the next marker row or end of sheet), returning
the untouched prefix and suffix. -/
theorem c8_delete_table_exact_only (data : Sheet) (T : String) :
    (deleteTable data T = .error .notFound ↔ ∀ r ∈ data, exactMatch T r = false) ∧
    (∀ s, FirstWith (exactMatch T) data s →
       deleteTable data T = .ok (data.take s ++ data.drop (tableEnd data s))) ∧
    ((∀ r ∈ data, exactMatch T r = false) → (∃ r ∈ data, ciMatch T r = true) →
       deleteTable data T = .error .notFound ∧ (getTableData data T).isOk = true) := by
  refine ⟨?_, ?_, ?_⟩
  · cases he : firstIdx? (exactMatch T) data with
    | some i =>
      rw [deleteTable_eq_ok he]
      constructor
      · intro h
        cases h
      · intro hall
        exfalso
        obtain ⟨⟨x, hx, hpx⟩, -⟩ := (firstIdx?_eq_some_iff (exactMatch T) data i).mp he
        rw [hall x (List.get?_mem hx)] at hpx
        cases hpx
    | none =>
      rw [deleteTable_eq_notFound he]
      simpa using (firstIdx?_eq_none_iff (exactMatch T) data).mp he
  · intro s hs
    exact deleteTable_eq_ok ((firstIdx?_eq_some_iff (exactMatch T) data s).mpr hs)
  · intro hall hci
    have he : firstIdx? (exactMatch T) data = none :=
      (firstIdx?_eq_none_iff (exactMatch T) data).mpr hall
    obtain ⟨r0, hr0, hp0⟩ := hci
    have hlen : data.length ≠ 0 := by
      intro h0
      rw [List.length_eq_zero.mp h0] at hr0
      cases hr0
    refine ⟨deleteTable_eq_notFound he, ?_⟩
    cases hc : firstIdx? (ciMatch T) data with
    | some i =>
      have := getTableData_eq_ok ((findTableStart_eq_ci he).trans hc)
      rw [this]
      rfl
    | none =>
      rw [(firstIdx?_eq_none_iff (ciMatch T) data).mp hc r0 hr0] at hp0
      cases hp0

/-- C8 witness: on a sheet with two tables, deleting the first removes
exactly its marker and body; a name matching only case-insensitively is
not deleted, while `getTableData` still resolves it. -/
theorem c8_delete_table_exact_only_witness :
    deleteTable [["A"], ["x", "y"], ["B"], ["z", "w"]] "A" = .ok [["B"], ["z", "w"]] ∧
    deleteTable [["launch"], ["x", "y"]] "LAUNCH" = .error .notFound ∧
    (getTableData [["launch"], ["x", "y"]] "LAUNCH").isOk = true := by
  have h1 := (c8_delete_table_exact_only [["A"], ["x", "y"], ["B"], ["z", "w"]] "A").2.1 0
    ⟨⟨["A"], rfl, by decide⟩, fun j hj x hx => absurd hj (Nat.not_lt_zero j)⟩
  have h2 := (c8_delete_table_exact_only [["launch"], ["x", "y"]] "LAUNCH").2.2
    (by decide) ⟨["launch"], by decide, by decide⟩
  exact ⟨h1.trans (by decide), h2.1, h2.2⟩

/-- C3 counterexample: `createTable` checks only the exact first-cell
collision, so a table name that collides with an existing marker under
case-insensitive trimmed comparison is appended without a conflict error,
although the claim demands a conflict. -/
theorem c3_counterexample_ci_collision_not_detected :
    createTable [["launch"], ["H1", "H2"]] "LAUNCH" ["N", "P"] =
      .ok [["launch"], ["H1", "H2"], ["LAUNCH"], ["N", "P"]] ∧
    norm "launch" = norm "LAUNCH" ∧
    isMarker ["launch"] = true := by
  refine ⟨by decide, by decide, by decide⟩

/-- C3 amended: `createTable` fails with a conflict exactly when some row
of the sheet has first cell exactly equal to the requested name
(case-sensitive, and not restricted to marker rows); otherwise it appends
the marker row followed by the header row. -/
theorem c3_create_table_exact_collision_only (data : Sheet) (T : String) (H : Row) :
    (createTable data T H = .error .alreadyExists ↔ ∃ r ∈ data, exactMatch T r = true) ∧
    ((∀ r ∈ data, exactMatch T r = false) → createTable data T H = .ok (data ++ [[T], H])) := by
  constructor
  · unfold createTable
    cases ha : data.any (exactMatch T) with
    | true =>
      simp only [if_pos]
      simpa using List.any_eq_true.mp ha
    | false =>
      simp only [Bool.false_eq_true, if_false]
      constructor
      · intro h
        cases h
      · intro h
        obtain ⟨r, hr, hp⟩ := h
        have := List.any_eq_true.mpr ⟨r, hr, hp⟩
        rw [ha] at this
        cases this
  · intro hall
    unfold createTable
    rw [if_neg]
    intro hany
    obtain ⟨r, hr, hp⟩ := List.any_eq_true.mp hany
    rw [hall r hr] at hp
    cases hp

/-- C3 witness: creating a table in an empty sheet appends marker and
header; creating it again conflicts. -/
theorem c3_create_table_exact_collision_only_witness :
    createTable [] "T" ["H1", "H2"] = .ok [["T"], ["H1", "H2"]] ∧
    createTable [["T"], ["H1", "H2"]] "T" ["H1", "H2"] = .error .alreadyExists := by
  have h1 := (c3_create_table_exact_collision_only [] "T" ["H1", "H2"]).2
    (fun r hr => absurd hr (List.not_mem_nil r))
  have h2 := (c3_create_table_exact_collision_only [["T"], ["H1", "H2"]] "T" ["H1", "H2"]).1.mpr
    ⟨["T"], by decide, by decide⟩
  exact ⟨h1, h2⟩


/-- C1 counterexample: a row with two cells of which exactly one is
non-empty is NOT treated as a marker by the end-of-table scan (the code
requires exactly one cell), so the returned table extends past it,
contradicting the claimed marker rule. -/
theorem c1_counterexample_one_nonempty_cell_row_not_marker :
    getTableData [["T"], ["H1", "H2"], ["", "x"], ["r1", "r2"]] "T" =
      .ok [["H1", "H2"], ["", "x"], ["r1", "r2"]] ∧
    specMarkerRow ["", "x"] = true ∧
    isMarker ["", "x"] = false := by
  refine ⟨by decide, by decide, by decide⟩

/-- C1 amended: full characterisation of `getTableData`.  The lookup fails
with `notFound` exactly when the sheet is non-empty and no row matches the
name exactly on its first cell nor case-insensitively trimmed; on success
the start index is the first exact match, or the first case-insensitive
match when no exact match exists, and the result is the row range from
the row after the start (header row) up to the table end, which is the
first later row with exactly one cell whose cell is non-empty, or the end
of the sheet. -/
theorem c1_get_table_data_characterization (data : Sheet) (T : String) :
    (getTableData data T = .error .notFound ↔
       data ≠ [] ∧ (∀ r ∈ data, exactMatch T r = false) ∧
       (∀ r ∈ data, ciMatch T r = false)) ∧
    (∀ res, getTableData data T = .ok res ↔
       ∃ s, (FirstWith (exactMatch T) data s ∨
             ((∀ r ∈ data, exactMatch T r = false) ∧ FirstWith (ciMatch T) data s)) ∧
            res = slice data (s + 1) (tableEnd data s)) ∧
    (∀ s, (∀ j x, s < j → j < tableEnd data s → data.get? j = some x → isMarker x = false) ∧
          (tableEnd data s = data.length ∨
             ∃ x, data.get? (tableEnd data s) = some x ∧ isMarker x = true) ∧
          tableEnd data s ≤ data.length) := by
  refine ⟨?_, ?_,
    fun s => ⟨tableEnd_no_marker data s, tableEnd_marker_or_end data s, tableEnd_le data s⟩⟩
  · by_cases hlen : data.length = 0
    · have hnil : data = [] := List.length_eq_zero.mp hlen
      subst hnil
      constructor
      · intro h
        simp [getTableData] at h
      · rintro ⟨h, -⟩
        exact absurd rfl h
    · cases hf : findTableStart data T with
      | none =>
        rw [getTableData_eq_notFound hlen hf]
        have hn := (findTableStart_eq_none_iff data T).mp hf
        constructor
        · intro _
          refine ⟨fun h => hlen (by rw [h]; rfl), hn.1, hn.2⟩
        · intro _
          rfl
      | some s =>
        rw [getTableData_eq_ok hf]
        constructor
        · intro h
          cases h
        · rintro ⟨-, hex, hci⟩
          have hcontra := (findTableStart_eq_none_iff data T).mpr ⟨hex, hci⟩
          rw [hf] at hcontra
          cases hcontra
  · intro res
    by_cases hlen : data.length = 0
    · have hnil : data = [] := List.length_eq_zero.mp hlen
      subst hnil
      constructor
      · intro h
        simp [getTableData] at h
      · rintro ⟨s, hstart, -⟩
        rcases hstart with ⟨⟨x, hx, -⟩, -⟩ | ⟨-, ⟨x, hx, -⟩, -⟩ <;> cases hx
    · cases hf : findTableStart data T with
      | none =>
        rw [getTableData_eq_notFound hlen hf]
        constructor
        · intro h
          cases h
        · rintro ⟨s, hstart, -⟩
          have hcontra := (findTableStart_eq_some_iff data T s).mpr hstart
          rw [hf] at hcontra
          cases hcontra
      | some s0 =>
        rw [getTableData_eq_ok hf]
        constructor
        · intro h
          injection h with h
          exact ⟨s0, (findTableStart_eq_some_iff data T s0).mp hf, h.symm⟩
        · rintro ⟨s, hstart, hres⟩
          have heq := (findTableStart_eq_some_iff data T s).mpr hstart
          rw [hf] at heq
          injection heq with heq
          subst heq
          rw [hres]

/-- C1 witness: a concrete successful read through the characterisation,
and a concrete `notFound`. -/
theorem c1_get_table_data_characterization_witness :
    getTableData [["T"], ["H1", "H2"], ["", "x"]] "T" = .ok [["H1", "H2"], ["", "x"]] ∧
    getTableData [["a", "b"]] "T" = .error .notFound := by
  have h := c1_get_table_data_characterization [["T"], ["H1", "H2"], ["", "x"]] "T"
  have h2 := c1_get_table_data_characterization [["a", "b"]] "T"
  constructor
  · exact (h.2.1 [["H1", "H2"], ["", "x"]]).mpr
      ⟨0, Or.inl ⟨⟨["T"], rfl, by decide⟩, fun j hj x hx => absurd hj (Nat.not_lt_zero j)⟩,
       by decide⟩
  · exact h2.1.mpr ⟨by decide, by decide, by decide⟩


theorem insertRow_length {data : Sheet} {i : Nat} {r : Row} (h : i ≤ data.length) :
    (insertRow data i r).length = data.length + 1 := by
  simp [insertRow, List.length_append, List.length_take, List.length_drop]
  omega

theorem get?_insertRow_lt {data : Sheet} {i : Nat} {r : Row} {j : Nat}
    (hj : j < i) (hi : i ≤ data.length) :
    (insertRow data i r).get? j = data.get? j := by
  rw [insertRow, List.get?_append (by rw [List.length_take]; omega), List.get?_take hj]

theorem FirstWith_insertRow {p : Row → Bool} {data : Sheet} {i : Nat} {r : Row} {s : Nat}
    (hs : FirstWith p data s) (hsi : s < i) (hi : i ≤ data.length) :
    FirstWith p (insertRow data i r) s := by
  obtain ⟨⟨x, hx, hpx⟩, hmin⟩ := hs
  refine ⟨⟨x, ?_, hpx⟩, ?_⟩
  · rw [get?_insertRow_lt hsi hi]
    exact hx
  · intro j hj y hy
    rw [get?_insertRow_lt (by omega) hi] at hy
    exact hmin j hj y hy

theorem mem_insertRow {data : Sheet} {i : Nat} {r x : Row}
    (h : x ∈ insertRow data i r) : x ∈ data ∨ x = r := by
  rw [insertRow] at h
  rcases List.mem_append.mp h with h | h
  · exact Or.inl (List.take_subset i data h)
  · rcases List.mem_cons.mp h with h | h
    · exact Or.inr h
    · exact Or.inl (List.drop_subset i data h)

theorem tableEnd_insertRow {data : Sheet} {T : String} {r : Row} {s : Nat}
    (hfs : findTableStart data T = some s) (hm : isMarker r = false) :
    tableEnd (insertRow data (tableEnd data s) r) s = tableEnd data s + 1 := by
  have hpos : s < data.length := findTableStart_some_pos hfs
  have hse : s < tableEnd data s := tableEnd_gt data s hpos
  have hle := tableEnd_le data s
  have hlenP : (data.take (tableEnd data s)).length = tableEnd data s := by
    rw [List.length_take]
    omega
  have hdropNew : (insertRow data (tableEnd data s) r).drop (s + 1) =
      slice data (s + 1) (tableEnd data s) ++ r :: data.drop (tableEnd data s) := by
    rw [insertRow, List.drop_append_eq_append_drop, hlenP,
      show s + 1 - tableEnd data s = 0 by omega, List.drop_zero]
    rfl
  have hbody : ∀ x ∈ slice data (s + 1) (tableEnd data s), isMarker x = false := by
    intro x hx
    obtain ⟨j, hj1, hj2, hget⟩ := get?_of_mem_slice hx
    exact tableEnd_no_marker data s j x (by omega) hj2 hget
  have hsliceLen : (slice data (s + 1) (tableEnd data s)).length =
      tableEnd data s - (s + 1) := by
    simp [slice, List.length_drop, List.length_take]
    omega
  have hcons : firstIdx? isMarker (r :: data.drop (tableEnd data s)) =
      (firstIdx? isMarker (data.drop (tableEnd data s))).map (· + 1) := by
    simp only [firstIdx?, hm, Bool.false_eq_true, if_false]
  cases hof : firstIdx? isMarker (data.drop (s + 1)) with
  | some j0 =>
    have hEold := tableEnd_eq_some hof
    obtain ⟨⟨m, hgm, hmm⟩, -⟩ := (firstIdx?_eq_some_iff isMarker (data.drop (s + 1)) j0).mp hof
    rw [List.get?_drop] at hgm
    have hdropE : (data.drop (tableEnd data s)).get? 0 = some m := by
      rw [List.get?_drop, Nat.add_zero, hEold]
      exact hgm
    have hfd : firstIdx? isMarker (data.drop (tableEnd data s)) = some 0 :=
      (firstIdx?_eq_some_iff _ _ 0).mpr
        ⟨⟨m, hdropE, hmm⟩, fun j hj y hy => absurd hj (Nat.not_lt_zero j)⟩
    have hNewDropIdx :
        firstIdx? isMarker ((insertRow data (tableEnd data s) r).drop (s + 1)) =
          some (tableEnd data s - (s + 1) + 1) := by
      rw [hdropNew, firstIdx?_append_of_forall _ _ _ hbody, hcons, hfd]
      simp only [Option.map_some', hsliceLen, Option.some.injEq]
      omega
    rw [tableEnd_eq_some hNewDropIdx]
    omega
  | none =>
    have hEold := tableEnd_eq_none hof
    have hdropE : data.drop (tableEnd data s) = [] := by
      rw [hEold, List.drop_length]
    have hNewDropIdx :
        firstIdx? isMarker ((insertRow data (tableEnd data s) r).drop (s + 1)) = none := by
      rw [hdropNew, hdropE, firstIdx?_append_of_forall _ _ _ hbody,
        show firstIdx? isMarker [r] = none from by simp [firstIdx?, hm]]
      rfl
    rw [tableEnd_eq_none hNewDropIdx, insertRow_length hle, hEold]

theorem slice_insertRow {data : Sheet} {T : String} {r : Row} {s : Nat}
    (hfs : findTableStart data T = some s) :
    slice (insertRow data (tableEnd data s) r) (s + 1) (tableEnd data s + 1) =
      slice data (s + 1) (tableEnd data s) ++ [r] := by
  have hpos := findTableStart_some_pos hfs
  have hse := tableEnd_gt data s hpos
  have hle := tableEnd_le data s
  have hlenP : (data.take (tableEnd data s)).length = tableEnd data s := by
    rw [List.length_take]
    omega
  have htake : (insertRow data (tableEnd data s) r).take (tableEnd data s + 1) =
      data.take (tableEnd data s) ++ [r] := by
    rw [insertRow, List.take_append_eq_append_take, hlenP,
      List.take_of_length_le (by rw [hlenP]; omega),
      show tableEnd data s + 1 - tableEnd data s = 1 by omega]
    rfl
  rw [slice, htake, List.drop_append_eq_append_drop, hlenP,
    show s + 1 - tableEnd data s = 0 by omega, List.drop_zero]
  rfl

/-- C2 counterexample: appending a single-cell non-empty row lands at the
table end, but a subsequent read does not include it: the appended row is
itself shaped like a marker and terminates the table. -/
theorem c2_counterexample_marker_shaped_row_lost :
    addToTable [["T"], ["H1", "H2"]] "T" ["X"] = .ok [["T"], ["H1", "H2"], ["X"]] ∧
    getTableData [["T"], ["H1", "H2"], ["X"]] "T" = .ok [["H1", "H2"]] ∧
    ["X"] ∉ [["H1", "H2"]] := by
  refine ⟨by decide, by decide, by decide⟩

/-- C2 amended: `addToTable` inserts the row at the absolute index
immediately after the last row of the table (the next marker index or end
of sheet), and a subsequent `getTableData` returns the old table rows with
the appended row last, before the next marker - provided the appended row
is not itself marker-shaped (a single-cell row with non-empty cell), and,
when the table was resolved only by the case-insensitive fallback, the
appended row does not carry the requested name exactly in its first
cell. -/
theorem c2_append_then_read_round_trip :
    (∀ (data : Sheet) (T : String) (r : Row) (s : Nat),
       firstIdx? (exactMatch T) data = some s → isMarker r = false →
       addToTable data T r = .ok (insertRow data (tableEnd data s) r) ∧
       getTableData data T = .ok (slice data (s + 1) (tableEnd data s)) ∧
       getTableData (insertRow data (tableEnd data s) r) T =
         .ok (slice data (s + 1) (tableEnd data s) ++ [r])) ∧
    (∀ (data : Sheet) (T : String) (r : Row) (s : Nat),
       firstIdx? (exactMatch T) data = none → firstIdx? (ciMatch T) data = some s →
       isMarker r = false → exactMatch T r = false →
       addToTable data T r = .ok (insertRow data (tableEnd data s) r) ∧
       getTableData data T = .ok (slice data (s + 1) (tableEnd data s)) ∧
       getTableData (insertRow data (tableEnd data s) r) T =
         .ok (slice data (s + 1) (tableEnd data s) ++ [r])) := by
  constructor
  · intro data T r s hex hm
    have hfs : findTableStart data T = some s := findTableStart_eq_exact hex
    have hpos := findTableStart_some_pos hfs
    have hse := tableEnd_gt data s hpos
    have hle := tableEnd_le data s
    have hNewStart : findTableStart (insertRow data (tableEnd data s) r) T = some s := by
      refine findTableStart_eq_exact ((firstIdx?_eq_some_iff _ _ s).mpr ?_)
      exact FirstWith_insertRow ((firstIdx?_eq_some_iff _ _ s).mp hex) hse hle
    refine ⟨addToTable_eq_ok r hfs, getTableData_eq_ok hfs, ?_⟩
    rw [getTableData_eq_ok hNewStart, tableEnd_insertRow hfs hm, slice_insertRow hfs]
  · intro data T r s hexn hci hm hex
    have hfs : findTableStart data T = some s := (findTableStart_eq_ci hexn).trans hci
    have hpos := findTableStart_some_pos hfs
    have hse := tableEnd_gt data s hpos
    have hle := tableEnd_le data s
    have hNewExactNone :
        firstIdx? (exactMatch T) (insertRow data (tableEnd data s) r) = none := by
      rw [firstIdx?_eq_none_iff]
      intro x hx
      rcases mem_insertRow hx with h | rfl
      · exact (firstIdx?_eq_none_iff (exactMatch T) data).mp hexn x h
      · exact hex
    have hNewStart : findTableStart (insertRow data (tableEnd data s) r) T = some s := by
      rw [findTableStart_eq_ci hNewExactNone]
      exact (firstIdx?_eq_some_iff _ _ s).mpr
        (FirstWith_insertRow ((firstIdx?_eq_some_iff _ _ s).mp hci) hse hle)
    refine ⟨addToTable_eq_ok r hfs, getTableData_eq_ok hfs, ?_⟩
    rw [getTableData_eq_ok hNewStart, tableEnd_insertRow hfs hm, slice_insertRow hfs]

/-- C2 witness: concrete append-then-read round trips, one through the
exact match and one through the case-insensitive fallback. -/
theorem c2_append_then_read_round_trip_witness :
    addToTable [["T"], ["H1", "H2"]] "T" ["a", "b"] = .ok [["T"], ["H1", "H2"], ["a", "b"]] ∧
    getTableData [["T"], ["H1", "H2"], ["a", "b"]] "T" = .ok [["H1", "H2"], ["a", "b"]] ∧
    addToTable [["t x"], ["H1", "H2"]] "T X" ["a", "b"] =
      .ok [["t x"], ["H1", "H2"], ["a", "b"]] := by
  have h1 := c2_append_then_read_round_trip.1 [["T"], ["H1", "H2"]] "T" ["a", "b"] 0
    (by decide) (by decide)
  have h2 := c2_append_then_read_round_trip.2 [["t x"], ["H1", "H2"]] "T X" ["a", "b"] 0
    (by decide) (by decide) (by decide) (by decide)
  refine ⟨h1.1.trans (by decide), ?_, h2.1.trans (by decide)⟩
  have e1 : insertRow [["T"], ["H1", "H2"]] (tableEnd [["T"], ["H1", "H2"]] 0) ["a", "b"] =
      [["T"], ["H1", "H2"], ["a", "b"]] := by decide
  rw [← e1]
  exact h1.2.2.trans (by decide)


theorem eventsScan_map_fst (data : Sheet) :
    (eventsScan data).map (fun e => e.1) =
      (data.filter isEventMarker).map (fun r => r.getD 0 "") := by
  induction data with
  | nil => rfl
  | cons r rest ih =>
    cases h : isEventMarker r with
    | true => simp [eventsScan, List.filter_cons, h, ih]
    | false => simp [eventsScan, List.filter_cons, h, ih]

theorem eventsScan_mem {data : Sheet} {x : String × Row × Option Row}
    (hx : x ∈ eventsScan data) :
    ∃ r ∈ data, isEventMarker r = true ∧ x.1 = r.getD 0 "" := by
  induction data with
  | nil => cases hx
  | cons r rest ih =>
    cases h : isEventMarker r with
    | true =>
      rw [show eventsScan (r :: rest) =
          (r.getD 0 "", rest.headD [], rest[1]?) :: eventsScan rest from by
        simp [eventsScan, h]] at hx
      rcases List.mem_cons.mp hx with hx | hx
      · exact ⟨r, List.mem_cons_self r rest, h, by rw [hx]⟩
      · obtain ⟨r2, hr2, hm2, he2⟩ := ih hx
        exact ⟨r2, List.mem_cons_of_mem r hr2, hm2, he2⟩
    | false =>
      rw [show eventsScan (r :: rest) = eventsScan rest from by simp [eventsScan, h]] at hx
      obtain ⟨r2, hr2, hm2, he2⟩ := ih hx
      exact ⟨r2, List.mem_cons_of_mem r hr2, hm2, he2⟩

theorem isEventMarker_not_id {r : Row} (h : isEventMarker r = true) :
    jsStartsWith (r.getD 0 "") "ID" = false := by
  unfold isEventMarker at h
  simp only [Bool.and_eq_true, Bool.not_eq_eq_eq_not, Bool.not_true] at h
  exact h.2

theorem listEvents_ok_inv {w : World} {cn : String} {evs : List EventInfo}
    (h : listEvents w cn = .ok evs) :
    ∃ data compStatus, getSheet? w cn = some data ∧
      evs = (eventsScan data).map (mkEvent data compStatus) := by
  unfold listEvents at h
  split at h
  · cases h
  · split at h
    · cases h
    · split at h
      · cases h
      · split at h
        · cases h
        · rename_i companiesData hcomp hdis data hdata
          injection h with h
          exact ⟨data, _, hdata, h.symm⟩

/-- C10: the event listing recognises a row as an event marker only when
it has exactly one cell, the cell is non-empty and does not start with
`ID`; so the listed event ids are exactly the values of such rows, no
listed id starts with `ID`, and a table whose marker name does start with
`ID` is still a valid target of `getTableData`, `addToTable` and
`deleteTable`. -/
theorem c10_event_listing_skips_id_markers :
    (∀ (w : World) (cn : String) (evs : List EventInfo) (data : Sheet),
       getSheet? w cn = some data → listEvents w cn = .ok evs →
       evs.map (fun e => e.id) = (data.filter isEventMarker).map (fun r => r.getD 0 "") ∧
       ∀ ev ∈ evs, jsStartsWith ev.id "ID" = false) ∧
    (∀ (data : Sheet) (T : String) (row : Row),
       (∃ r ∈ data, exactMatch T r = true) →
       (getTableData data T).isOk = true ∧ (addToTable data T row).isOk = true ∧
       (deleteTable data T).isOk = true) := by
  constructor
  · intro w cn evs data hdata hok
    obtain ⟨data2, cs, hdata2, hevs⟩ := listEvents_ok_inv hok
    rw [hdata] at hdata2
    injection hdata2 with hdata2
    subst hdata2
    subst hevs
    constructor
    · rw [List.map_map]
      exact eventsScan_map_fst data
    · intro ev hev
      obtain ⟨x, hx, rfl⟩ := List.mem_map.mp hev
      obtain ⟨r, hr, hm, he⟩ := eventsScan_mem hx
      show jsStartsWith x.1 "ID" = false
      rw [he]
      exact isEventMarker_not_id hm
  · intro data T row hex
    obtain ⟨i, hi⟩ := exists_exact_firstIdx hex
    have hfs : findTableStart data T = some i := findTableStart_eq_exact hi
    refine ⟨?_, ?_, ?_⟩
    · rw [getTableData_eq_ok hfs]
      rfl
    · rw [addToTable_eq_ok row hfs]
      rfl
    · rw [deleteTable_eq_ok hi]
      rfl

/-- C10 witness: a sheet whose only table is named `ID1` lists no events,
while the table itself is still readable. -/
theorem c10_event_listing_skips_id_markers_witness :
    ([] : List EventInfo).map (fun e => e.id) =
      (([["ID1"], ["H1", "H2"]] : Sheet).filter isEventMarker).map (fun r => r.getD 0 "") ∧
    (getTableData [["ID1"], ["H1", "H2"]] "ID1").isOk = true := by
  have h := c10_event_listing_skips_id_markers
  have h1 := h.1 ⟨[("companies", [["ID", "Name"], ["1", "c"]]), ("c", [["ID1"], ["H1", "H2"]])]⟩
    "c" [] [["ID1"], ["H1", "H2"]] (by decide) (by decide)
  exact ⟨h1.1, (h.2 [["ID1"], ["H1", "H2"]] "ID1" [] ⟨["ID1"], by decide, by decide⟩).1⟩


theorem settings_cell_iff (headers : Row) (k : Nat) (c : String) :
    ((some k == firstIdx? (fun h => h == "Image") headers && c != "") ||
     (some k == firstIdx? (fun h => h == "EventDescription") headers && c != "") ||
     (some k == firstIdx? (fun h => h == "EventDate") headers && c != "") ||
     (some k == firstIdx? (fun h => h == "EventStatus") headers && c != "") ||
     c == "") = true ↔
    (c = "" ∨ ∃ nm ∈ settingsNames, some k = firstIdx? (fun h => h == nm) headers) := by
  by_cases hc : c = ""
  · simp [hc]
  · simp only [Bool.or_eq_true, Bool.and_eq_true, beq_iff_eq, bne_iff_ne, settingsNames,
      List.mem_cons, List.not_mem_nil, or_false, exists_eq_or_imp, exists_eq_left, hc,
      ne_eq, not_false_iff, and_true, false_or, or_assoc]

theorem isSettingsRow_iff (headers row : Row) :
    isSettingsRow headers row = true ↔
      ∀ p ∈ row.enum, p.2 = "" ∨
        ∃ nm ∈ settingsNames, some p.1 = firstIdx? (fun h => h == nm) headers := by
  simp only [isSettingsRow, List.all_eq_true]
  constructor
  · intro h p hp
    exact (settings_cell_iff headers p.1 p.2).mp (h p hp)
  · intro h p hp
    exact (settings_cell_iff headers p.1 p.2).mpr (h p hp)

/-- C5 counterexample: with a header row that carries the name `Image`
twice, a non-empty cell under the second occurrence makes the row a
settings row under the claimed by-name rule, yet the listing counts it as
a registration, because the code resolves each settings name to its first
index only. -/
theorem c5_counterexample_duplicate_settings_header :
    listEvents
      ⟨[("companies",
         [["ID", "Name", "Username", "Password", "Image", "Status"],
          ["1", "c", "c", "h", "", "enabled"]]),
        ("c", [["EV"], ["Name", "Image", "Image"], ["", "", "x"]])]⟩ "c" =
      .ok [⟨"EV", "EV", none, "", "", "enabled", 1, "enabled"⟩] ∧
    specSettingsRow ["Name", "Image", "Image"] ["", "", "x"] = true ∧
    getTableData [["EV"], ["Name", "Image", "Image"], ["", "", "x"]] "EV" =
      .ok [["Name", "Image", "Image"], ["", "", "x"]] := by
  refine ⟨by decide, by decide, by decide⟩

/-- C5 amended: a row is a settings row exactly when each cell is empty or
sits at the FIRST index at which the header names one of Image,
EventDescription, EventDate, EventStatus (a duplicate occurrence of a
settings name is not a settings column); the event listing reports each
event registration count as exactly the number of rows after the header
that are not settings rows under this rule, and the registration listing
returns exactly the non-settings rows, projected to the kept columns. -/
theorem c5_settings_rule_counts_and_rows :
    (∀ headers row, isSettingsRow headers row = true ↔
       ∀ p ∈ row.enum, p.2 = "" ∨
         ∃ nm ∈ settingsNames, some p.1 = firstIdx? (fun h => h == nm) headers) ∧
    (∀ (w : World) (cn : String) (evs : List EventInfo) (data : Sheet) (ev : EventInfo)
       (td : List Row),
       getSheet? w cn = some data → listEvents w cn = .ok evs → ev ∈ evs →
       getTableData data ev.id = .ok td →
       ev.registrations = (td.drop 1).countP (fun r => !(isSettingsRow (td.headD []) r))) ∧
    (∀ (h : Row) (rows : List Row) (isAdmin : Bool) (v : RegsView),
       registrationsView (h :: rows) isAdmin = some v →
       v.registrations = (rows.filter (fun row => !(isSettingsRow h row))).map
         (fun (row : Row) => h.enum.filterMap
           (fun p => if (excludeIdxs h isAdmin).contains p.1 then none
                     else some (p.2, row.getD p.1 "")))) := by
  refine ⟨isSettingsRow_iff, ?_, ?_⟩
  · intro w cn evs data ev td hdata hok hev htd
    obtain ⟨data2, cs, hdata2, hevs⟩ := listEvents_ok_inv hok
    rw [hdata] at hdata2
    injection hdata2 with hdata2
    subst hdata2
    subst hevs
    obtain ⟨x, hx, rfl⟩ := List.mem_map.mp hev
    show countRegs data x.1 = _
    have htd2 : getTableData data x.1 = .ok td := htd
    unfold countRegs
    rw [htd2]
  · intro h rows isAdmin v hv
    simp only [registrationsView] at hv
    injection hv with hv
    subst hv
    rfl

/-- C5 witness: the classification rule and the count applied at a
concrete table in which the settings row is skipped and the registrant row
is counted. -/
theorem c5_settings_rule_counts_and_rows_witness :
    isSettingsRow ["Name", "Image"] ["", "pic"] = true ∧
    (⟨"EV", "EV", some "p", "", "", "enabled", 1, "enabled"⟩ : EventInfo).registrations =
      (([["N", "Image"], ["", "p"], ["x", ""]] : List Row).drop 1).countP
        (fun r => !(isSettingsRow (([["N", "Image"], ["", "p"], ["x", ""]] : List Row).headD []) r)) := by
  have h := c5_settings_rule_counts_and_rows
  constructor
  · exact (h.1 ["Name", "Image"] ["", "pic"]).mpr (by decide)
  · exact h.2.1
      ⟨[("companies", [["ID", "Name"], ["1", "c"]]), ("c", [["EV"], ["N", "Image"], ["", "p"], ["x", ""]])]⟩
      "c" [⟨"EV", "EV", some "p", "", "", "enabled", 1, "enabled"⟩]
      [["EV"], ["N", "Image"], ["", "p"], ["x", ""]]
      ⟨"EV", "EV", some "p", "", "", "enabled", 1, "enabled"⟩
      [["N", "Image"], ["", "p"], ["x", ""]]
      (by decide) (by decide) (by decide) (by decide)

/-- C9: the registration listing always excludes the first occurrence of
each of the four settings columns, for admin and non-admin callers alike;
the admin flag controls only whether the first `National ID` column is
additionally excluded.  Headers and every returned registration object are
projected to the non-excluded indices. -/
theorem c9_registrations_hide_settings_columns (h : Row) (rows : List Row) :
    (excludeIdxs h true = settingsIdxsOf h) ∧
    (excludeIdxs h false = settingsIdxsOf h ++ (natIdIdx h).toList) ∧
    (∀ isAdmin : Bool, ∀ j ∈ settingsIdxsOf h, (excludeIdxs h isAdmin).contains j = true) ∧
    (∀ (isAdmin : Bool) (v : RegsView), registrationsView (h :: rows) isAdmin = some v →
       v.headers = (h.enum.filter
         (fun p => !((excludeIdxs h isAdmin).contains p.1))).map (fun p => p.2) ∧
       ∀ reg ∈ v.registrations, ∃ row : Row,
         reg = h.enum.filterMap
           (fun p => if (excludeIdxs h isAdmin).contains p.1 then none
                     else some (p.2, row.getD p.1 ""))) := by
  refine ⟨rfl, ?_, ?_, ?_⟩
  · unfold excludeIdxs
    cases hn : natIdIdx h with
    | some j => simp [Option.toList]
    | none => simp [Option.toList]
  · intro isAdmin j hj
    cases isAdmin with
    | true => exact List.elem_eq_true_of_mem hj
    | false =>
      unfold excludeIdxs
      cases hn : natIdIdx h with
      | some i => exact List.elem_eq_true_of_mem (List.mem_append_left _ hj)
      | none => exact List.elem_eq_true_of_mem hj
  · intro isAdmin v hv
    simp only [registrationsView] at hv
    injection hv with hv
    subst hv
    refine ⟨rfl, ?_⟩
    intro reg hreg
    obtain ⟨row, hrow, rfl⟩ := List.mem_map.mp hreg
    exact ⟨row, rfl⟩

/-- C9 witness: at a concrete table the admin view keeps `National ID` but
not `Image`, and the non-admin exclusion set contains the `Image` index. -/
theorem c9_registrations_hide_settings_columns_witness :
    (⟨["Name", "National ID"], [[("Name", "a"), ("National ID", "n")]], 1⟩ : RegsView).headers =
      ((["Name", "National ID", "Image"] : Row).enum.filter
        (fun p => !((excludeIdxs ["Name", "National ID", "Image"] true).contains p.1))).map
        (fun p => p.2) ∧
    (excludeIdxs ["Name", "National ID", "Image"] false).contains 2 = true := by
  have h := c9_registrations_hide_settings_columns ["Name", "National ID", "Image"] [["a", "n", "p"]]
  refine ⟨?_, ?_⟩
  · exact (h.2.2.2 true ⟨["Name", "National ID"], [[("Name", "a"), ("National ID", "n")]], 1⟩
      (by decide)).1
  · exact h.2.2.1 false 2 (by decide)


theorem getTableData_ok_findTableStart {data : Sheet} {T : String} {res : List Row}
    (h : getTableData data T = .ok res) : ∃ s, findTableStart data T = some s := by
  unfold getTableData at h
  split at h
  · cases h
  · split at h
    · cases h
    · rename_i s hs
      exact ⟨s, hs⟩

theorem register_company_disabled {w : World} {req : RegRequest} {now : String}
    {sd companiesData : Sheet} {row : Row}
    (hval : validateReq req = none)
    (hsheet : getSheet? w (jsDecodeTrim req.companyName) = some sd)
    (hne : sd.length ≠ 0)
    (hcomp : getSheet? w "companies" = some companiesData)
    (hfind : (companiesData.drop 1).find?
      (ciNameMatch (jsDecodeTrim req.companyName)) = some row)
    (hstat : companyStatusOf row = "disabled") :
    register w req now = .error .companyDisabled := by
  rw [List.drop_one] at hfind
  unfold register
  simp [hval, hsheet, hne, hcomp, hfind, hstat]

theorem register_event_disabled {w : World} {req : RegRequest} {now : String}
    {sd companiesData : Sheet} {row : Row} {evs : List EventInfo} {ev : EventInfo}
    {td : List Row}
    (hval : validateReq req = none)
    (hsheet : getSheet? w (jsDecodeTrim req.companyName) = some sd)
    (hne : sd.length ≠ 0)
    (hcomp : getSheet? w "companies" = some companiesData)
    (hfind : (companiesData.drop 1).find?
      (ciNameMatch (jsDecodeTrim req.companyName)) = some row)
    (hstat : (companyStatusOf row == "disabled") = false)
    (hlist : listEvents w (jsDecodeTrim req.companyName) = .ok evs)
    (hevs : evs.isEmpty = false)
    (hfev : evs.find? (fun e => norm e.id == norm (jsDecodeTrim req.eventName)) = some ev)
    (htd : getTableData sd ev.id = .ok td)
    (htdne : td.length ≠ 0)
    (hdis : eventDisabledCheck td = true) :
    register w req now = .error .eventDisabled := by
  rw [List.drop_one] at hfind
  have hevs2 : evs ≠ [] := by simpa using hevs
  have htdne2 : td ≠ [] := fun h => htdne (by rw [h]; rfl)
  have hstat2 : ¬(companyStatusOf row = "disabled") := by simpa using hstat
  unfold register
  simp [hval, hsheet, hne, hcomp, hfind, hstat2, hlist, hevs2, hfev, htd, htdne2, hdis]

theorem register_duplicate_found {w : World} {req : RegRequest} {now : String}
    {sd companiesData : Sheet} {row : Row} {evs : List EventInfo} {ev : EventInfo}
    {td : List Row} {r0 : Row}
    (hval : validateReq req = none)
    (hsheet : getSheet? w (jsDecodeTrim req.companyName) = some sd)
    (hne : sd.length ≠ 0)
    (hcomp : getSheet? w "companies" = some companiesData)
    (hfind : (companiesData.drop 1).find?
      (ciNameMatch (jsDecodeTrim req.companyName)) = some row)
    (hstat : (companyStatusOf row == "disabled") = false)
    (hlist : listEvents w (jsDecodeTrim req.companyName) = .ok evs)
    (hevs : evs.isEmpty = false)
    (hfev : evs.find? (fun e => norm e.id == norm (jsDecodeTrim req.eventName)) = some ev)
    (htd : getTableData sd ev.id = .ok td)
    (htdne : td.length ≠ 0)
    (hdis : eventDisabledCheck td = false)
    (hdup : (td.drop 1).find?
      (fun r => r[2]? == some (req.email.getD "") || r[1]? == some (req.phone.getD "")) =
        some r0) :
    register w req now = .error .alreadyRegistered := by
  rw [List.drop_one] at hfind
  rw [List.drop_one] at hdup
  have hevs2 : evs ≠ [] := by simpa using hevs
  have htdne2 : td ≠ [] := fun h => htdne (by rw [h]; rfl)
  have hstat2 : ¬(companyStatusOf row = "disabled") := by simpa using hstat
  unfold register
  simp [hval, hsheet, hne, hcomp, hfind, hstat2, hlist, hevs2, hfev, htd, htdne2, hdis, hdup]

theorem register_no_duplicate_ok {w : World} {req : RegRequest} {now : String}
    {sd companiesData : Sheet} {row : Row} {evs : List EventInfo} {ev : EventInfo}
    {td : List Row}
    (hval : validateReq req = none)
    (hsheet : getSheet? w (jsDecodeTrim req.companyName) = some sd)
    (hne : sd.length ≠ 0)
    (hcomp : getSheet? w "companies" = some companiesData)
    (hfind : (companiesData.drop 1).find?
      (ciNameMatch (jsDecodeTrim req.companyName)) = some row)
    (hstat : (companyStatusOf row == "disabled") = false)
    (hlist : listEvents w (jsDecodeTrim req.companyName) = .ok evs)
    (hevs : evs.isEmpty = false)
    (hfev : evs.find? (fun e => norm e.id == norm (jsDecodeTrim req.eventName)) = some ev)
    (htd : getTableData sd ev.id = .ok td)
    (htdne : td.length ≠ 0)
    (hdis : eventDisabledCheck td = false)
    (hdup : (td.drop 1).find?
      (fun r => r[2]? == some (req.email.getD "") || r[1]? == some (req.phone.getD "")) =
        none) :
    (register w req now).isOk = true := by
  obtain ⟨s, hfs⟩ := getTableData_ok_findTableStart htd
  have hadd := addToTable_eq_ok
    [req.name.getD "", req.phone.getD "", req.email.getD "", req.gender.getD "",
     req.college.getD "", req.status.getD "", req.nationalId.getD "", now, ""] hfs
  rw [List.drop_one] at hfind
  rw [List.drop_one] at hdup
  have hevs2 : evs ≠ [] := by simpa using hevs
  have htdne2 : td ≠ [] := fun h => htdne (by rw [h]; rfl)
  have hstat2 : ¬(companyStatusOf row = "disabled") := by simpa using hstat
  unfold register
  simp only [hval, hsheet, hne, hcomp, hfind, hstat2, hlist, hevs2, hfev, htd, htdne2, hdis,
    hdup, hadd]
  simp [hval, hsheet, hne, hcomp, hfind, hstat2, hlist, hevs2, hfev, htd, htdne2, hdis, hdup,
    hadd]
  rfl


/-- C4 counterexample: the duplicate scan runs over ALL rows after the
header at fixed cell indices 1 and 2 without filtering settings rows.  In
a table whose header places `Image` at index 1, the settings row (a
settings row both under the claimed by-name rule and under the code rule)
holds a digit string at index 1, and a registration with that phone number
is rejected as `alreadyRegistered` although no registrant row matches. -/
theorem c4_counterexample_settings_row_not_filtered :
    register oddWorld samRequest "t" = .error .alreadyRegistered ∧
    specSettingsRow oddHeadersFixture oddSettingsRowFixture = true ∧
    isSettingsRow oddHeadersFixture oddSettingsRowFixture = true ∧
    getTableData [["EV"], oddHeadersFixture, oddSettingsRowFixture] "EV" =
      .ok [oddHeadersFixture, oddSettingsRowFixture] := by
  refine ⟨by decide, by decide, by decide, by decide⟩

/-- C4 amended: a resolved register call succeeds exactly when no row
after the header row (settings rows included, no filtering) has cell 2
equal to the submitted email or cell 1 equal to the submitted phone, under
exact string comparison; if some such row exists the call fails as already
registered.  Concretely: registering Sam succeeds, a second identical call
on the resulting store fails as already registered, and a third call with
the same email in different case (and a fresh phone) succeeds, showing the
match is exact with no normalisation. -/
theorem c4_duplicate_detection :
    (∀ (w : World) (req : RegRequest) (now : String) (sd companiesData : Sheet)
       (row : Row) (evs : List EventInfo) (ev : EventInfo) (td : List Row),
       validateReq req = none →
       getSheet? w (jsDecodeTrim req.companyName) = some sd → sd.length ≠ 0 →
       getSheet? w "companies" = some companiesData →
       (companiesData.drop 1).find? (ciNameMatch (jsDecodeTrim req.companyName)) = some row →
       (companyStatusOf row == "disabled") = false →
       listEvents w (jsDecodeTrim req.companyName) = .ok evs → evs.isEmpty = false →
       evs.find? (fun e => norm e.id == norm (jsDecodeTrim req.eventName)) = some ev →
       getTableData sd ev.id = .ok td → td.length ≠ 0 → eventDisabledCheck td = false →
       (((∀ r ∈ td.drop 1, r[2]? ≠ some (req.email.getD "") ∧
            r[1]? ≠ some (req.phone.getD "")) →
          (register w req now).isOk = true) ∧
        ((∃ r ∈ td.drop 1, r[2]? = some (req.email.getD "") ∨
            r[1]? = some (req.phone.getD "")) →
          register w req now = .error .alreadyRegistered))) ∧
    (register worldFixture samRequest "t1" = .ok (worldAfterSam, ("Sam", "sam@x.cd", "t1")) ∧
     register worldAfterSam samRequest "t2" = .error .alreadyRegistered) ∧
    ((register worldAfterSam samCaseVariantRequest "t3").isOk = true) := by
  refine ⟨?_, ⟨by decide, by decide⟩, by decide⟩
  intro w req now sd companiesData row evs ev td hval hsheet hne hcomp hfind hstat hlist
    hevs hfev htd htdne hdis
  constructor
  · intro hall
    have hdup : (td.drop 1).find?
        (fun r => r[2]? == some (req.email.getD "") || r[1]? == some (req.phone.getD "")) =
          none := by
      rw [List.find?_eq_none]
      intro x hx
      obtain ⟨h1, h2⟩ := hall x hx
      simp only [Bool.or_eq_true, beq_iff_eq]
      rintro (hc | hc)
      · exact h1 hc
      · exact h2 hc
    exact register_no_duplicate_ok hval hsheet hne hcomp hfind hstat hlist hevs hfev htd
      htdne hdis hdup
  · intro hex
    obtain ⟨r0, hr0, hor⟩ := hex
    have hdupne : (td.drop 1).find?
        (fun r => r[2]? == some (req.email.getD "") || r[1]? == some (req.phone.getD "")) ≠
          none := by
      rw [Ne, List.find?_eq_none]
      push_neg
      refine ⟨r0, hr0, ?_⟩
      simp only [Bool.or_eq_true, beq_iff_eq]
      exact hor
    obtain ⟨r1, hr1⟩ := Option.ne_none_iff_exists'.mp hdupne
    exact register_duplicate_found hval hsheet hne hcomp hfind hstat hlist hevs hfev htd
      htdne hdis hr1

/-- C4 witness: a resolved call with no matching row succeeds. -/
theorem c4_duplicate_detection_witness :
    (register worldFixture samRequest "tW").isOk = true := by
  have h := (c4_duplicate_detection.1 worldFixture samRequest "tW" eventSheetFixture
    companiesFixture ["1", "c", "c", "h", "", "enabled"]
    [⟨"EV", "EV", none, "d", "2025", "enabled", 0, "enabled"⟩]
    ⟨"EV", "EV", none, "d", "2025", "enabled", 0, "enabled"⟩
    [canonicalHeaders, settingsFixture]
    (by decide) (by decide) (by decide) (by decide) (by decide) (by decide) (by decide)
    (by decide) (by decide) (by decide) (by decide) (by decide)).1
  exact h (by decide)

/-- C6 counterexample: a company whose directory row exists with status
`disabled`, but whose own sheet is empty (a disabled company with no
events), is rejected by the registration handler with the company
not-found error (HTTP 404), not with the forbidden error: the handler
checks the company sheet before the directory status. -/
theorem c6_counterexample_disabled_company_empty_sheet_not_found :
    register disabledEmptyWorld acmeRequest "t" = .error .companyNotFound ∧
    httpStatus .companyNotFound = 404 ∧
    (disabledCompaniesFixture.drop 1).find? (fun r => r[2]? == some "acme") =
      some ["1", "Acme", "acme", "h", "", "disabled"] ∧
    companyStatusOf ["1", "Acme", "acme", "h", "", "disabled"] = "disabled" := by
  refine ⟨by decide, rfl, by decide, by decide⟩

/-- C6 amended: the login credential check rejects a disabled company with
the dedicated disabled outcome (never the not-found/invalid outcome)
whenever the username resolves to a directory row with status `disabled`;
the registration handler fails with the forbidden company-disabled error
whenever the request passes validation, the company sheet exists and is
non-empty, and the case-insensitive directory lookup yields a disabled
row; and a resolved register call on an event whose first data row holds
`disabled` in the `EventStatus` column fails with the forbidden
event-disabled error. -/
theorem c6_disabled_company_and_event_gating :
    (∀ (companies : Sheet) (pwCheck : String → String → Bool) (u p : String) (row : Row),
       u ≠ "" → p ≠ "" →
       (companies.drop 1).find? (fun r => r[2]? == some u) = some row →
       companyStatusOf row = "disabled" →
       authorizeCompany companies pwCheck u p = .disabledCompany) ∧
    (∀ (w : World) (req : RegRequest) (now : String) (sd companiesData : Sheet) (row : Row),
       validateReq req = none →
       getSheet? w (jsDecodeTrim req.companyName) = some sd → sd.length ≠ 0 →
       getSheet? w "companies" = some companiesData →
       (companiesData.drop 1).find? (ciNameMatch (jsDecodeTrim req.companyName)) = some row →
       companyStatusOf row = "disabled" →
       register w req now = .error .companyDisabled ∧ httpStatus .companyDisabled = 403) ∧
    (∀ (w : World) (req : RegRequest) (now : String) (sd companiesData : Sheet) (row : Row)
       (evs : List EventInfo) (ev : EventInfo) (td : List Row),
       validateReq req = none →
       getSheet? w (jsDecodeTrim req.companyName) = some sd → sd.length ≠ 0 →
       getSheet? w "companies" = some companiesData →
       (companiesData.drop 1).find? (ciNameMatch (jsDecodeTrim req.companyName)) = some row →
       (companyStatusOf row == "disabled") = false →
       listEvents w (jsDecodeTrim req.companyName) = .ok evs → evs.isEmpty = false →
       evs.find? (fun e => norm e.id == norm (jsDecodeTrim req.eventName)) = some ev →
       getTableData sd ev.id = .ok td → td.length ≠ 0 →
       eventDisabledCheck td = true →
       register w req now = .error .eventDisabled ∧ httpStatus .eventDisabled = 403) := by
  refine ⟨?_, ?_, ?_⟩
  · intro companies pwCheck u p row hu hp hfind hstat
    rw [List.drop_one] at hfind
    unfold authorizeCompany
    simp [hu, hp, hfind, hstat]
  · intro w req now sd companiesData row hval hsheet hne hcomp hfind hstat
    exact ⟨register_company_disabled hval hsheet hne hcomp hfind hstat, rfl⟩
  · intro w req now sd companiesData row evs ev td hval hsheet hne hcomp hfind hstat hlist
      hevs hfev htd htdne hdis
    exact ⟨register_event_disabled hval hsheet hne hcomp hfind hstat hlist hevs hfev htd
      htdne hdis, rfl⟩

/-- C6 witness: a disabled company is rejected at login and at
registration with the disabled outcomes, and a disabled event is rejected
with the event-disabled error. -/
theorem c6_disabled_company_and_event_gating_witness :
    authorizeCompany disabledCompaniesFixture (fun _ _ => true) "acme" "pw" =
      .disabledCompany ∧
    register disabledWorld acmeRequest "t" = .error .companyDisabled ∧
    register disabledEventWorld samRequest "t" = .error .eventDisabled := by
  have h := c6_disabled_company_and_event_gating
  refine ⟨?_, ?_, ?_⟩
  · exact h.1 disabledCompaniesFixture (fun _ _ => true) "acme" "pw"
      ["1", "Acme", "acme", "h", "", "disabled"] (by decide) (by decide) (by decide)
      (by decide)
  · exact (h.2.1 disabledWorld acmeRequest "t" eventSheetFixture disabledCompaniesFixture
      ["1", "Acme", "acme", "h", "", "disabled"] (by decide) (by decide) (by decide)
      (by decide) (by decide) (by decide)).1
  · exact (h.2.2 disabledEventWorld samRequest "t"
      [["EV"], canonicalHeaders, settingsDisabledFixture] companiesFixture
      ["1", "c", "c", "h", "", "enabled"]
      [⟨"EV", "EV", none, "d", "2025", "disabled", 0, "enabled"⟩]
      ⟨"EV", "EV", none, "d", "2025", "disabled", 0, "enabled"⟩
      [canonicalHeaders, settingsDisabledFixture]
      (by decide) (by decide) (by decide) (by decide) (by decide) (by decide) (by decide)
      (by decide) (by decide) (by decide) (by decide) (by decide)).1

/-- C7: a register request whose `companyName` field is absent passes
field validation, because `decodeURIComponent(undefined)` coerces the
missing value to the non-empty string `undefined`; the handler then reads
the store and answers company-not-found (HTTP 404) rather than the claimed
invalid-argument failure, and against a store that happens to contain a
company named `undefined` the same request even registers successfully -
so the store IS read and written on this supposedly-rejected input. -/
theorem c7_missing_company_field_reaches_store :
    validateReq missingCompanyRequest = none ∧
    jsDecodeTrim missingCompanyRequest.companyName = "undefined" ∧
    register worldFixture missingCompanyRequest "t" = .error .companyNotFound ∧
    (register undefinedWorld missingCompanyRequest "t").isOk = true := by
  refine ⟨by decide, by decide, by decide, by decide⟩

end SheetStore
